import Mathlib

/-!
Shallow embedding of the conversation-context lifecycle and prompt-assembly
engine of a multi-tenant Telegram chat-bot manager, together with theorems
checking its natural-language specification.

The canonical implementation is the decomposed variant consisting of
ContextManager (context/contextManager.ts), MessageHandlers
(messages/messageHandlers.ts), MessageParser (messages/messageParser.ts),
MessageSender (messages/messageSender.ts), ApiService (api/apiService.ts) and
TelegramBot (bot/telegramBot.ts).  JavaScript arrays of chat messages become
Lean lists, the two Map namespaces become association lists, timestamps become
integers (milliseconds), and JavaScript string truthiness (null / undefined /
empty string are falsy) is modelled with Option String plus emptiness checks.

The repository's constants module (constants.ts, exporting BOT_DEFAULTS) is not
part of the provided sources; the numeric values used below are modelled from
the spec (and agree with the literal constants of the superseded monolithic
variant kept in the repository).
-/

namespace Bot

/-- Message roles accepted by the completion API. -/
inductive Role where
  | system
  | user
  | assistant
deriving DecidableEq, Repr

/-- A chat message, mirroring the ChatMessage interface of types.ts. -/
structure ChatMessage where
  role : Role
  content : String
deriving DecidableEq, Repr

/-- A conversation context, mirroring the UserContext interface of types.ts. -/
structure UserContext where
  messages : List ChatMessage
  lastInteraction : Int
  postTopic : Option String := none
  messageCount : Nat
  activeConversation : Bool
deriving DecidableEq, Repr

/-- Modelled from the spec: BOT_DEFAULTS.HISTORY.MAX_LENGTH from the missing
constants.ts — the stored-history cap MAX_HISTORY, 30 entries. -/
def MAX_HISTORY_LENGTH : Nat := 30

/-- Modelled from the spec: BOT_DEFAULTS.HISTORY.RELEVANT_LENGTH from the
missing constants.ts — the prompt window RELEVANT_HISTORY_LENGTH, 10 entries. -/
def RELEVANT_HISTORY_LENGTH : Nat := 10

/-- Modelled from the spec: BOT_DEFAULTS.MESSAGES.REMINDER_INTERVAL from the
missing constants.ts — the reinforcement interval, 10 counted messages. -/
def REMINDER_INTERVAL : Nat := 10

/-- The last n elements of a list (JavaScript Array.prototype.slice(-n)). -/
def lastN (n : Nat) (l : List α) : List α := l.drop (l.length - n)

/-- Embeds MessageHandlers.limitMessageHistory: if the history exceeds
MAX_HISTORY_LENGTH, keep only the last MAX_HISTORY_LENGTH entries
(messages.slice(-BOT_DEFAULTS.HISTORY.MAX_LENGTH)). -/
def limitMessageHistory (msgs : List ChatMessage) : List ChatMessage :=
  if msgs.length > MAX_HISTORY_LENGTH then lastN MAX_HISTORY_LENGTH msgs else msgs

/-- One append-plus-truncate step of the user-message flow
(messages.push followed by limitMessageHistory). -/
def appendAndLimit (msgs : List ChatMessage) (m : ChatMessage) : List ChatMessage :=
  limitMessageHistory (msgs ++ [m])

/-- Embeds MessageHandlers.updatePostContext: push the post text as a user
entry and the bot comment as an assistant entry, bump messageCount by 2,
refresh lastInteraction, then limit the history. -/
def updatePostContext (ctx : UserContext) (postText botComment : String)
    (now : Int) : UserContext :=
  { ctx with
    messages := limitMessageHistory
      (ctx.messages ++ [⟨Role.user, postText⟩, ⟨Role.assistant, botComment⟩])
    messageCount := ctx.messageCount + 2
    lastInteraction := now }

/-- The flat list of (user, assistant) entries recorded by a sequence of
post-comment turns. -/
def postFlatten (pairs : List (String × String)) : List ChatMessage :=
  pairs.flatMap (fun p => [⟨Role.user, p.1⟩, ⟨Role.assistant, p.2⟩])

/-- The role-adherence reminder text pushed by prepareMessagesForApi. -/
def reminderText : String :=
  "Помни о своей роли и придерживайся заданного стиля общения."

/-- The reinforcement system entry. -/
def reminderMessage : ChatMessage := ⟨Role.system, reminderText⟩

/-- The prefix of the topic system entry's content. -/
def topicPrefix : String := "Текущая тема обсуждения: "

/-- The topic system entry for topic t. -/
def topicMessage (t : String) : ChatMessage := ⟨Role.system, topicPrefix ++ t⟩

/-- The static bot configuration fields consumed by the prompt assembler. -/
structure BotConfig where
  SYSTEM_PROMPT : String
deriving DecidableEq, Repr

/-- Embeds MessageHandlers.getRelevantMessages: the whole history when it has
at most RELEVANT_HISTORY_LENGTH entries, otherwise the last
RELEVANT_HISTORY_LENGTH entries (messages.slice(-RELEVANT_LENGTH)). -/
def getRelevantMessages (messages : List ChatMessage) : List ChatMessage :=
  if messages.length ≤ RELEVANT_HISTORY_LENGTH then messages
  else lastN RELEVANT_HISTORY_LENGTH messages

/-- Embeds MessageHandlers.prepareMessagesForApi: start from the static system
prompt; if messageCount is divisible by REMINDER_INTERVAL push the reminder;
if postTopic is truthy (set and non-empty) push the topic entry; then push the
relevant history window.  The source reads userContext and never writes to it,
so the embedding is a pure function of the context. -/
def prepareMessagesForApi (cfg : BotConfig) (ctx : UserContext) : List ChatMessage :=
  let needsReminderOfRole := ctx.messageCount % REMINDER_INTERVAL == 0
  let messages := [(⟨Role.system, cfg.SYSTEM_PROMPT⟩ : ChatMessage)]
  let messages := if needsReminderOfRole then messages ++ [reminderMessage] else messages
  let messages := match ctx.postTopic with
    | some t => if t ≠ "" then messages ++ [topicMessage t] else messages
    | none => messages
  messages ++ getRelevantMessages ctx.messages

/-- Modelled from the spec: BOT_DEFAULTS.CONTEXT.BASE_TTL_MS from the missing
constants.ts — base context time-to-live, 30 minutes in milliseconds. -/
def BASE_TTL_MS : Int := 30 * 60 * 1000

/-- Modelled from the spec: BOT_DEFAULTS.CONTEXT.ACTIVE_TTL_MS from the
missing constants.ts — active-conversation time-to-live, 2 hours in
milliseconds. -/
def ACTIVE_TTL_MS : Int := 2 * 60 * 60 * 1000

/-- A context namespace (userContexts or postContexts) as an association
list keyed by the composite string key. -/
abbrev ContextMap : Type := List (String × UserContext)

/-- The TTL selected for a context by ContextManager.cleanMapWithTtl. -/
def ttlFor (ctx : UserContext) : Int :=
  if ctx.activeConversation then ACTIVE_TTL_MS else BASE_TTL_MS

/-- Embeds ContextManager.cleanMapWithTtl: delete every entry whose
inactivity currentTime − lastInteraction strictly exceeds its TTL. -/
def cleanMapWithTtl (contextMap : ContextMap) (currentTime : Int) : ContextMap :=
  contextMap.filter (fun p => !(currentTime - p.2.lastInteraction > ttlFor p.2))

/-- Embeds ContextManager.cleanupOldContexts: sweep both namespaces with the
same current time. -/
def cleanupOldContexts (users posts : ContextMap) (now : Int) :
    ContextMap × ContextMap :=
  (cleanMapWithTtl users now, cleanMapWithTtl posts now)

/-- Embeds ContextManager.createNewUserContext: empty history, current time,
the optional topic, zero count, inactive. -/
def createNewUserContext (postTopic : Option String) (now : Int) : UserContext :=
  { messages := []
    lastInteraction := now
    postTopic := postTopic
    messageCount := 0
    activeConversation := false }

/-- JavaScript Map.prototype.set on an association list: replace in place if
the key exists, otherwise append. -/
def mapSet (m : ContextMap) (k : String) (v : UserContext) : ContextMap :=
  if (m.lookup k).isSome then
    m.map (fun p => if p.1 = k then (k, v) else p)
  else m ++ [(k, v)]

/-- Embeds ContextManager.getPostContext: create the context when the key is
absent; when it exists and the topic hint is truthy (supplied and non-empty),
overwrite the topic and refresh lastInteraction; otherwise leave the stored
context untouched.  Returns the looked-up context and the updated namespace. -/
def getPostContext (posts : ContextMap) (postKey : String)
    (postTopic : Option String) (now : Int) : UserContext × ContextMap :=
  match posts.lookup postKey with
  | none =>
    let c := createNewUserContext postTopic now
    (c, mapSet posts postKey c)
  | some ctx =>
    match postTopic with
    | some t =>
      if t ≠ "" then
        let c := { ctx with postTopic := some t, lastInteraction := now }
        (c, mapSet posts postKey c)
      else (ctx, posts)
    | none => (ctx, posts)

/-- Modelled from the spec: BOT_DEFAULTS.API.DEFAULT_RETRIES from the missing
constants.ts — the default maxRetries of the gateway, 3 attempts. -/
def DEFAULT_RETRIES : Nat := 3

/-- Modelled from the spec: BOT_DEFAULTS.API.BACKOFF_BASE_MS from the missing
constants.ts — the exponential-backoff base, 1000 ms. -/
def BACKOFF_BASE_MS : Nat := 1000

/-- The shape of an axios error as far as ApiService.isNetworkError inspects
it: whether it is an axios error, its code, its message, and whether an HTTP
response was received. -/
structure ApiError where
  isAxiosError : Bool
  code : Option String
  message : String
  hasResponse : Bool
deriving DecidableEq, Repr

/-- Substring occurrence test on character lists (JavaScript
String.prototype.includes). -/
def listContains (needle hay : List Char) : Bool :=
  match hay with
  | [] => needle.isEmpty
  | _ :: rest => needle.isPrefixOf hay || listContains needle rest

/-- JavaScript String.prototype.includes, on the character lists of the two
strings. -/
def jsIncludes (s sub : String) : Bool := listContains sub.toList s.toList

/-- Embeds ApiService.isNetworkError: an axios error with a connection-level
code, a timeout/network message, or no HTTP response at all. -/
def isNetworkError (e : ApiError) : Bool :=
  e.isAxiosError
    && (e.code == some "ECONNRESET"
      || e.code == some "ETIMEDOUT"
      || e.code == some "ECONNABORTED"
      || jsIncludes e.message "timeout"
      || jsIncludes e.message "network"
      || !e.hasResponse)

/-- The outcome of one call to the completion API. -/
inductive ApiOutcome where
  | success (reply : String)
  | failure (e : ApiError)
deriving DecidableEq, Repr

/-- The error ApiService.callApiWithRetry initializes lastError with. -/
def unknownError : ApiError :=
  { isAxiosError := false, code := none, message := "Unknown error", hasResponse := false }

/-- Embeds the while loop of ApiService.callApiWithRetry.  The nth call made
by the loop observes outcome (outcomes n); since retryCount advances by one
per iteration and every iteration performs exactly one call, the call index
equals retryCount.  Returns the result (reply or thrown error) together with
the list of backoff delays performed, each BACKOFF_BASE * 2 ^ retryCount. -/
def retryLoop (outcomes : Nat → ApiOutcome) (base maxRetries : Nat)
    (retryCount : Nat) (lastError : ApiError) :
    Except ApiError String × List Nat :=
  if _h : retryCount < maxRetries then
    match outcomes retryCount with
    | ApiOutcome.success s => (Except.ok s, [])
    | ApiOutcome.failure e =>
      if isNetworkError e then
        let waitTime := base * 2 ^ retryCount
        let rest := retryLoop outcomes base maxRetries (retryCount + 1) e
        (rest.1, waitTime :: rest.2)
      else (Except.error e, [])
  else (Except.error lastError, [])
termination_by maxRetries - retryCount
decreasing_by omega

/-- Embeds ApiService.callApiWithRetry: run the loop from retryCount = 0 with
lastError initialized to the placeholder error. -/
def callApiWithRetry (outcomes : Nat → ApiOutcome) (base maxRetries : Nat) :
    Except ApiError String × List Nat :=
  retryLoop outcomes base maxRetries 0 unknownError

/-- JavaScript String.prototype.trim modelled on character lists. -/
def jsTrim (s : String) : String :=
  (((s.toList.dropWhile Char.isWhitespace).reverse.dropWhile
      Char.isWhitespace).reverse).asString

/-- A quote or period character stripped from the edges of the model's topic
answer (the character class of the replace regex in inferPostTopic). -/
def isStripChar (c : Char) : Bool := c == '"' || c == '\'' || c == '.'

/-- The global replace of leading and trailing quote/period runs performed on
the model's topic answer. -/
def stripEdges (s : String) : String :=
  (((s.toList.dropWhile isStripChar).reverse.dropWhile isStripChar).reverse).asString

/-- A sentence terminator of the fallback-topic regex character class. -/
def isTermChar (c : Char) : Bool := c == '.' || c == '!' || c == '?'

/-- Whether the character at index j is a sentence terminator. -/
def termAt (cs : List Char) (j : Nat) : Bool :=
  match cs.get? j with
  | some c => isTermChar c
  | none => false

/-- The greatest index in 1..n holding a sentence terminator, scanning
downward — the index at which the greedy backtracking of the first regex
alternative succeeds. -/
def lastTermIdx (cs : List Char) : Nat → Option Nat
  | 0 => none
  | n + 1 => if termAt cs (n + 1) then some (n + 1) else lastTermIdx cs n

/-- Embeds the fallback heuristic regex of inferPostTopic,
match of (1 to 50 characters followed by a terminator) or else (1 to 50
characters), anchored at the start: the dot matches everything except a
newline, and the first alternative is greedy, so it succeeds at the greatest
index j at most min(50, length of the leading newline-free run) holding a
terminator, yielding the first j+1 characters; otherwise the match is the
leading newline-free run capped at 50 characters; when even that is empty
(text empty or starting with a newline) the match fails and the constant
label is returned. -/
def fallbackTopic (text : String) : String :=
  let cs := text.toList
  let pmax := ((cs.takeWhile (fun c => !(c == '\n'))).take 50).length
  match lastTermIdx cs pmax with
  | some j => (cs.take (j + 1)).asString
  | none => if 0 < pmax then (cs.take pmax).asString else "Общая тема"

/-- Embeds ApiService.inferPostTopic as a function of the completion
outcome.  The first component records whether a completion call was issued:
texts shorter than 10 characters return the constant label with no call; on
a successful call the trimmed, edge-stripped answer is returned unless empty;
on a failed call the deterministic fallback heuristic is returned. -/
def inferPostTopic (postText : String) (api : Except ApiError String) :
    Bool × String :=
  if postText.length < 10 then (false, "Общая тема")
  else
    match api with
    | Except.ok raw =>
      let topic := stripEdges (jsTrim raw)
      (true, if topic = "" then "Общая тема" else topic)
    | Except.error _ => (true, fallbackTopic postText)

/-- Claim-side predicate: index j (1 ≤ j ≤ 50) holds a sentence terminator
and no character before it is a newline — the condition under which the first
regex alternative can match j characters plus the terminator. -/
def validTermAt (cs : List Char) (j : Nat) : Bool :=
  decide (1 ≤ j) && decide (j ≤ 50) && termAt cs j
    && (cs.take j).all (fun c => !(c == '\n'))

/-- A chat reference as inspected by the duck-typed channel checks: only its
type string matters. -/
structure ChatRef where
  type : String
deriving DecidableEq, Repr

/-- A Telegram user as inspected by the parser: id and optional username. -/
structure TgUser where
  id : Int
  username : Option String
deriving DecidableEq, Repr

/-- The reply_to_message object as inspected by MessageParser.isReplyToBot:
only its sender matters. -/
structure MsgStub where
  fromUser : Option TgUser
deriving DecidableEq, Repr

/-- An inbound Telegram message, restricted to the fields the dispatcher
inspects. -/
structure InboundMessage where
  text : Option String
  caption : Option String
  date : Int
  replyTo : Option MsgStub
  forwardFromChat : Option ChatRef
  senderChat : Option ChatRef
  fromUser : Option TgUser
deriving DecidableEq, Repr

/-- The bot identity obtained from getMe. -/
structure BotInfo where
  id : Int
  username : String
deriving DecidableEq, Repr

/-- JavaScript truthiness filter for an optional string field: undefined and
the empty string are falsy. -/
def truthyStr (o : Option String) : Option String :=
  match o with
  | some t => if t = "" then none else some t
  | none => none

/-- Embeds MessageParser.getMessageText: the text when truthy, else the
caption when truthy, else null. -/
def getMessageText (m : InboundMessage) : Option String :=
  (truthyStr m.text).or (truthyStr m.caption)

/-- Embeds MessageParser.isReplyToBot: the message replies to a message whose
sender id equals the bot id. -/
def isReplyToBot (m : InboundMessage) (botInfo : BotInfo) : Bool :=
  match m.replyTo with
  | none => false
  | some r =>
    match r.fromUser with
    | some u => u.id == botInfo.id
    | none => false

/-- Embeds MessageParser.isBotMentioned: the text contains the handle
consisting of an at sign and the bot username (falsy arguments fail). -/
def isBotMentioned (messageText : String) (botUsername : String) : Bool :=
  if messageText = "" || botUsername = "" then false
  else jsIncludes messageText ("@" ++ botUsername)

/-- Embeds MessageParser.isChannelPost: forwarded from a channel, or sent on
behalf of a channel with no individual sender. -/
def isChannelPost (m : InboundMessage) : Bool :=
  (match m.forwardFromChat with
    | some c => c.type == "channel"
    | none => false)
  || (m.fromUser.isNone
      && (match m.senderChat with
          | some c => c.type == "channel"
          | none => false))

/-- Modelled from the spec: BOT_DEFAULTS.POSTS.COMMENT_PROBABILITY from the
missing constants.ts — the post-comment probability, default 1 (100 percent),
compared against a uniform draw in the interval from 0 inclusive to 1
exclusive. -/
def COMMENT_PROBABILITY : ℚ := 1

/-- The dispatcher configuration field consumed by the staleness cutoff. -/
structure DispatchConfig where
  IGNORE_MESSAGES_OLDER_THAN_MINS : Option Int
deriving DecidableEq, Repr

/-- Embeds TelegramBot.getIgnoreThreshold: now minus the configured number of
minutes when that setting is truthy (set and non-zero), else the process
startup time. -/
def getIgnoreThreshold (cfg : DispatchConfig) (startupTime now : Int) : Int :=
  match cfg.IGNORE_MESSAGES_OLDER_THAN_MINS with
  | some m => if m ≠ 0 then now - m * 60 * 1000 else startupTime
  | none => startupTime

/-- The route chosen by the dispatcher for one inbound message. -/
inductive DispatchAction where
  | commentPost
  | directMessage
  | logOldMessage
  | ignore
deriving DecidableEq, Repr

/-- Whether a dispatch route reaches the context store and the completion
gateway: only post commenting and direct-message handling do; logging an old
message and silently ignoring touch neither. -/
def actionUsesContextOrApi (a : DispatchAction) : Bool :=
  a == DispatchAction.commentPost || a == DispatchAction.directMessage

/-- Embeds TelegramBot.handleIncomingMessage: extract text (drop the event
when absent), compute staleness against the cutoff, then route: channel post
(subject to the probability draw) first, fresh addressed message second,
stale addressed message third (log only), everything else ignored. -/
def handleIncomingMessage (botInfo : BotInfo) (cfg : DispatchConfig)
    (startupTime now : Int) (rand : ℚ) (msg : InboundMessage) : DispatchAction :=
  match getMessageText msg with
  | none => DispatchAction.ignore
  | some messageText =>
    let messageTime := msg.date * 1000
    let ignoreOlderThan := getIgnoreThreshold cfg startupTime now
    let isOldMessage : Bool := messageTime < ignoreOlderThan
    let mentioned := isBotMentioned messageText botInfo.username
    let replyToBot := isReplyToBot msg botInfo
    let channelPost := isChannelPost msg
    if channelPost && decide (rand < COMMENT_PROBABILITY) then
      DispatchAction.commentPost
    else if (replyToBot || mentioned) && !isOldMessage then
      DispatchAction.directMessage
    else if isOldMessage && (replyToBot || mentioned) then
      DispatchAction.logOldMessage
    else
      DispatchAction.ignore

/-- Modelled from the spec: BOT_DEFAULTS.MESSAGES.MAX_LENGTH from the missing
constants.ts — the Telegram message size cap, 4096. -/
def MAX_MESSAGE_LENGTH : Nat := 4096

/-- Modelled from the spec: BOT_DEFAULTS.MESSAGES.MAX_SAFE_LENGTH from the
missing constants.ts — the safe payload cap, 4000 (the sanitizer truncates to
the literal 4000 when it is exceeded). -/
def MAX_SAFE_LENGTH : Nat := 4000

/-- Whether a character terminates a sentence for the splitting regex
lookbehind (period, question mark, exclamation mark or newline). -/
def isSentenceBoundary (c : Char) : Bool :=
  c == '.' || c == '?' || c == '!' || c == '\n'

/-- Scanner for the sentence split regex of splitMessageIntoParts, whitespace
runs preceded by a sentence boundary: cur holds the current fragment in
reverse; a whitespace character whose predecessor is a boundary closes the
fragment and swallows the whitespace run. -/
def splitSentAux (cs : List Char) (cur : List Char) : List (List Char) :=
  match cs with
  | [] => [cur.reverse]
  | c :: rest =>
    if c.isWhitespace
        && (match cur with
            | p :: _ => isSentenceBoundary p
            | [] => false) then
      cur.reverse :: splitSentAux (rest.dropWhile Char.isWhitespace) []
    else
      splitSentAux rest (c :: cur)
termination_by cs.length
decreasing_by
  · have := (List.dropWhile_sublist (l := rest) (p := Char.isWhitespace)).length_le
    simp
    omega
  · simp

/-- Embeds the sentence split text.split of splitMessageIntoParts. -/
def splitSentences (text : String) : List String :=
  (splitSentAux text.toList []).map (fun l => l.asString)

/-- Embeds the inner while loop of splitMessageIntoParts that chops one
oversize sentence into chunks, with fuel standing in for the missing
termination argument: each iteration emits the first MAX_LENGTH − 30
characters plus an ellipsis and prepends an ellipsis to the remainder before
looping while the remainder is non-empty. -/
def chunkLoop (fuel : Nat) (remaining : List Char) : Option (List String) :=
  match fuel with
  | 0 => none
  | fuel + 1 =>
    if remaining.length > 0 then
      let chunk := remaining.take (MAX_MESSAGE_LENGTH - 30)
      match chunkLoop fuel
          (('.' :: '.' :: '.' :: []) ++ remaining.drop chunk.length) with
      | some rest => some ((chunk.asString ++ "...") :: rest)
      | none => none
    else some []

/-- Embeds the sentence-accumulation loop of splitMessageIntoParts: parts and
currentPart as in the source; an overflow pushes the trimmed currentPart and
either chunks the oversize sentence or restarts currentPart with it. -/
def splitLoop (fuel : Nat) : List String → List String → String → Option (List String)
  | [], parts, currentPart =>
    some (if currentPart.length > 0 then parts ++ [jsTrim currentPart] else parts)
  | sentence :: rest, parts, currentPart =>
    if currentPart.length + sentence.length > MAX_MESSAGE_LENGTH - 30 then
      let parts2 := if currentPart.length > 0 then parts ++ [jsTrim currentPart] else parts
      if sentence.length > MAX_MESSAGE_LENGTH then
        match chunkLoop fuel sentence.toList with
        | some chunks => splitLoop fuel rest (parts2 ++ chunks) ""
        | none => none
      else
        splitLoop fuel rest parts2 sentence
    else
      splitLoop fuel rest parts
        (currentPart ++ (if currentPart.length > 0 then " " else "") ++ sentence)

/-- Embeds the part numbering of splitMessageIntoParts: a position marker is
prefixed when there is more than one part. -/
def numberParts (parts : List String) : List String :=
  if parts.length > 1 then
    parts.mapIdx (fun i p =>
      "(" ++ toString (i + 1) ++ "/" ++ toString parts.length ++ ") " ++ p)
  else parts

/-- Embeds MessageSender.splitMessageIntoParts. -/
def splitMessageIntoParts (fuel : Nat) (text : String) : Option (List String) :=
  match splitLoop fuel (splitSentences text) [] "" with
  | some parts => some (numberParts parts)
  | none => none

/-- Embeds MessageSender.sendSplitMessage, returning the list of texts handed
to the delivery collaborator (sendMessageParts delivers every produced part,
falling back to a reply-free send on errors): empty, whitespace-only and
literal bracket-pair texts are dropped with no send; extremely long texts are
truncated; a text within MAX_LENGTH is sent whole; anything longer goes
through splitMessageIntoParts, whose inner chunk loop may not terminate
(fuel exhaustion gives none). -/
def sendSplitMessage (fuel : Nat) (text : String) : Option (List String) :=
  if text = "" ∨ jsTrim text = "" ∨ text = "[]" then some []
  else
    let text2 := if text.length > MAX_SAFE_LENGTH * 5 then
        (text.toList.take MAX_MESSAGE_LENGTH).asString
          ++ "... [сообщение обрезано из-за аномальной длины]"
      else text
    if text2.length ≤ MAX_MESSAGE_LENGTH then some [text2]
    else splitMessageIntoParts fuel text2

theorem length_lastN (n : Nat) (l : List α) : (lastN n l).length = min l.length n := by
  simp [lastN]
  omega

theorem lastN_suffix (n : Nat) (l : List α) : lastN n l <:+ l :=
  List.drop_suffix _ _

theorem lastN_of_length_le {n : Nat} {l : List α} (h : l.length ≤ n) :
    lastN n l = l := by
  simp [lastN, Nat.sub_eq_zero_of_le h]

/-- Truncating after an append is the same as keeping the last
MAX_HISTORY_LENGTH entries of the appended list. -/
theorem limitMessageHistory_eq_lastN (msgs : List ChatMessage) :
    limitMessageHistory msgs = lastN MAX_HISTORY_LENGTH msgs := by
  unfold limitMessageHistory
  split
  · rfl
  · exact (lastN_of_length_le (by omega)).symm

theorem lastN_append_of_le_length {n : Nat} (pre z : List α) (h : n ≤ z.length) :
    lastN n (pre ++ z) = lastN n z := by
  unfold lastN
  have harith : pre.length + z.length - n = pre.length + (z.length - n) := by omega
  rw [List.length_append, harith, List.drop_append]

/-- Re-truncation absorbs: keeping the last n of (last n of x, extended by y)
is the same as keeping the last n of the extended x. -/
theorem lastN_lastN_append (n : Nat) (x y : List α) :
    lastN n (lastN n x ++ y) = lastN n (x ++ y) := by
  by_cases h : x.length ≤ n
  · rw [lastN_of_length_le h]
  · have hz : n ≤ (lastN n x ++ y).length := by
      rw [List.length_append, length_lastN]; omega
    have h2 := lastN_append_of_le_length (x.take (x.length - n)) (lastN n x ++ y) hz
    rw [← List.append_assoc] at h2
    have h3 : x.take (x.length - n) ++ lastN n x = x := by
      unfold lastN; exact List.take_append_drop _ _
    rw [h3] at h2
    exact h2.symm

/-- Repeated append-plus-truncate steps from a bounded history keep exactly
the last MAX_HISTORY_LENGTH of everything appended. -/
theorem foldl_appendAndLimit (msgs : List ChatMessage) :
    ∀ h : List ChatMessage, h.length ≤ MAX_HISTORY_LENGTH →
      msgs.foldl appendAndLimit h = lastN MAX_HISTORY_LENGTH (h ++ msgs) := by
  induction msgs with
  | nil => intro h hh; simp [lastN_of_length_le hh]
  | cons m ms ih =>
    intro h hh
    rw [List.foldl_cons]
    have hstep : appendAndLimit h m = lastN MAX_HISTORY_LENGTH (h ++ [m]) := by
      rw [appendAndLimit, limitMessageHistory_eq_lastN]
    have hlen : (lastN MAX_HISTORY_LENGTH (h ++ [m])).length ≤ MAX_HISTORY_LENGTH := by
      rw [length_lastN]; omega
    rw [hstep, ih _ hlen, lastN_lastN_append, List.append_assoc]
    rfl

/-- Repeated updatePostContext turns from a bounded history keep exactly the
last MAX_HISTORY_LENGTH of everything appended. -/
theorem foldl_updatePostContext (pairs : List (String × String)) :
    ∀ (ctx : UserContext) (now : Int), ctx.messages.length ≤ MAX_HISTORY_LENGTH →
      (pairs.foldl (fun c p => updatePostContext c p.1 p.2 now) ctx).messages
        = lastN MAX_HISTORY_LENGTH (ctx.messages ++ postFlatten pairs) := by
  induction pairs with
  | nil => intro ctx now hh; simp [postFlatten, lastN_of_length_le hh]
  | cons p ps ih =>
    intro ctx now hh
    rw [List.foldl_cons]
    have hmsgs : (updatePostContext ctx p.1 p.2 now).messages
        = lastN MAX_HISTORY_LENGTH
            (ctx.messages ++ [⟨Role.user, p.1⟩, ⟨Role.assistant, p.2⟩]) := by
      rw [updatePostContext, limitMessageHistory_eq_lastN]
    have hlen : (updatePostContext ctx p.1 p.2 now).messages.length
        ≤ MAX_HISTORY_LENGTH := by
      rw [hmsgs, length_lastN]; omega
    rw [ih _ now hlen, hmsgs, lastN_lastN_append, List.append_assoc]
    simp [postFlatten]

/-- C1: for every context (user or post) and every sequence of N appended
entries with N greater than MAX_HISTORY (30), every intermediate
append-plus-truncate state is exactly the last MAX_HISTORY of what was
appended so far (so truncation only drops oldest entries, order is preserved,
and the length never exceeds MAX_HISTORY), and the final history has length
exactly MAX_HISTORY and consists of exactly the N−MAX_HISTORY+1 .. N most
recently appended entries; the post-context flow (updatePostContext, two
entries per turn) maintains the same invariant. -/
theorem history_bound (msgs : List ChatMessage)
    (hN : MAX_HISTORY_LENGTH < msgs.length) :
    (∀ i, ((msgs.take i).foldl appendAndLimit []).length ≤ MAX_HISTORY_LENGTH)
    ∧ (∀ i, (msgs.take i).foldl appendAndLimit []
        = lastN MAX_HISTORY_LENGTH (msgs.take i))
    ∧ msgs.foldl appendAndLimit [] = msgs.drop (msgs.length - MAX_HISTORY_LENGTH)
    ∧ (msgs.foldl appendAndLimit []).length = MAX_HISTORY_LENGTH
    ∧ (∀ (ctx : UserContext) (pairs : List (String × String)) (now : Int),
        ctx.messages.length ≤ MAX_HISTORY_LENGTH →
        (pairs.foldl (fun c p => updatePostContext c p.1 p.2 now) ctx).messages
          = lastN MAX_HISTORY_LENGTH (ctx.messages ++ postFlatten pairs)) := by
  have hfold : ∀ i, (msgs.take i).foldl appendAndLimit []
      = lastN MAX_HISTORY_LENGTH (msgs.take i) := by
    intro i
    have := foldl_appendAndLimit (msgs.take i) [] (by simp)
    simpa using this
  have hfull : msgs.foldl appendAndLimit [] = lastN MAX_HISTORY_LENGTH msgs := by
    have := hfold msgs.length
    simpa using this
  refine ⟨?_, hfold, ?_, ?_, ?_⟩
  · intro i
    rw [hfold i, length_lastN]
    omega
  · rw [hfull]; rfl
  · rw [hfull, length_lastN]; omega
  · intro ctx pairs now hctx
    exact foldl_updatePostContext pairs ctx now hctx

/-- Witness for history_bound at a concrete 31-entry append sequence. -/
theorem history_bound_witness :
    MAX_HISTORY_LENGTH
        < (List.replicate 31 (⟨Role.user, "m"⟩ : ChatMessage)).length
    ∧ ((List.replicate 31 (⟨Role.user, "m"⟩ : ChatMessage)).foldl appendAndLimit []).length
        = MAX_HISTORY_LENGTH :=
  ⟨by simp [MAX_HISTORY_LENGTH],
    (history_bound (List.replicate 31 ⟨Role.user, "m"⟩)
      (by simp [MAX_HISTORY_LENGTH])).2.2.2.1⟩

theorem getRelevantMessages_eq_lastN (messages : List ChatMessage) :
    getRelevantMessages messages = lastN RELEVANT_HISTORY_LENGTH messages := by
  unfold getRelevantMessages
  split
  · exact (lastN_of_length_le (by omega)).symm
  · rfl

/-- C2: the assembled prompt is exactly the static system entry, then the
reinforcement entry when due, then the topic entry when a topic is set, then
a window over the stored history; the window is the most recent entries in
original (oldest-first) order — a suffix of the stored history — and never
holds more than RELEVANT_HISTORY_LENGTH (10) entries regardless of how many
(up to MAX_HISTORY = 30) are stored; assembly reads the context without
changing it (the embedding is a pure function). -/
theorem prompt_assembly (cfg : BotConfig) (ctx : UserContext) :
    prepareMessagesForApi cfg ctx
      = [(⟨Role.system, cfg.SYSTEM_PROMPT⟩ : ChatMessage)]
        ++ (if ctx.messageCount % REMINDER_INTERVAL = 0 then [reminderMessage] else [])
        ++ (match ctx.postTopic with
            | some t => if t ≠ "" then [topicMessage t] else []
            | none => [])
        ++ lastN RELEVANT_HISTORY_LENGTH ctx.messages
    ∧ (lastN RELEVANT_HISTORY_LENGTH ctx.messages).length ≤ RELEVANT_HISTORY_LENGTH
    ∧ lastN RELEVANT_HISTORY_LENGTH ctx.messages <:+ ctx.messages := by
  refine ⟨?_, ?_, lastN_suffix _ _⟩
  · unfold prepareMessagesForApi
    rw [getRelevantMessages_eq_lastN]
    rcases ctx.postTopic with _ | t
    · by_cases h : ctx.messageCount % REMINDER_INTERVAL = 0 <;> simp [h]
    · by_cases h : ctx.messageCount % REMINDER_INTERVAL = 0
        <;> by_cases ht : t = "" <;> simp [h, ht]
  · rw [length_lastN]; omega

/-- Normal form of the assembled prompt, shared by the prompt theorems. -/
theorem prepareMessagesForApi_eq (cfg : BotConfig) (ctx : UserContext) :
    prepareMessagesForApi cfg ctx
      = [(⟨Role.system, cfg.SYSTEM_PROMPT⟩ : ChatMessage)]
        ++ (if ctx.messageCount % REMINDER_INTERVAL = 0 then [reminderMessage] else [])
        ++ (match ctx.postTopic with
            | some t => if t ≠ "" then [topicMessage t] else []
            | none => [])
        ++ lastN RELEVANT_HISTORY_LENGTH ctx.messages := by
  unfold prepareMessagesForApi
  rw [getRelevantMessages_eq_lastN]
  rcases ctx.postTopic with _ | t
  · by_cases h : ctx.messageCount % REMINDER_INTERVAL = 0 <;> simp [h]
  · by_cases h : ctx.messageCount % REMINDER_INTERVAL = 0
      <;> by_cases ht : t = "" <;> simp [h, ht]

/-- A topic system entry never coincides with the reinforcement entry: their
contents differ already at the first character. -/
theorem topicMessage_ne_reminder (t : String) : topicMessage t ≠ reminderMessage := by
  intro h
  have hcontent : topicPrefix ++ t = reminderText :=
    congrArg ChatMessage.content h
  have hdata : (topicPrefix ++ t).data = reminderText.data :=
    congrArg String.data hcontent
  rw [String.data_append] at hdata
  have hhead : (topicPrefix.data ++ t.data).head? = reminderText.data.head? := by
    rw [hdata]
  rw [List.head?_append] at hhead
  have htp : topicPrefix.data.head? = some 'Т' := rfl
  have hrm : reminderText.data.head? = some 'П' := rfl
  rw [htp, hrm] at hhead
  simp [Option.or] at hhead

/-- C3 counterexample: a freshly created context has messageCount = 0, which
is not a positive multiple of the reinforcement interval, yet the assembled
prompt contains the reinforcement entry (0 % 10 = 0 in the source's check). -/
theorem reinforcement_cadence_cex :
    reminderMessage ∈ prepareMessagesForApi ⟨"setup"⟩ ⟨[], 0, none, 0, false⟩
    ∧ ¬ 0 < (⟨[], 0, none, 0, false⟩ : UserContext).messageCount := by
  decide

/-- C3 (amended): provided the static prompt is not the reminder text and the
stored history holds no system entries (as produced by the handlers, which
only push user and assistant entries), the assembled prompt contains the
reinforcement entry iff messageCount is divisible by the reinforcement
interval (10) — including messageCount = 0, not only positive multiples; in
particular for messageCount 1..30 it is present exactly at 10, 20 and 30. -/
theorem reinforcement_cadence (cfg : BotConfig) (ctx : UserContext)
    (hsys : cfg.SYSTEM_PROMPT ≠ reminderText)
    (hhist : ∀ m ∈ ctx.messages, m.role ≠ Role.system) :
    (reminderMessage ∈ prepareMessagesForApi cfg ctx
      ↔ ctx.messageCount % REMINDER_INTERVAL = 0)
    ∧ (1 ≤ ctx.messageCount → ctx.messageCount ≤ 30 →
        (reminderMessage ∈ prepareMessagesForApi cfg ctx
          ↔ ctx.messageCount = 10 ∨ ctx.messageCount = 20 ∨ ctx.messageCount = 30)) := by
  have hiff : reminderMessage ∈ prepareMessagesForApi cfg ctx
      ↔ ctx.messageCount % REMINDER_INTERVAL = 0 := by
    rw [prepareMessagesForApi_eq]
    constructor
    · intro hmem
      by_contra hc
      simp only [List.mem_append, hc, if_false, List.mem_singleton] at hmem
      rcases hmem with ((h1 | h2) | h3) | h4
      · exact hsys (congrArg ChatMessage.content h1).symm
      · simp at h2
      · rcases hpt : ctx.postTopic with _ | t
        · rw [hpt] at h3; simp at h3
        · rw [hpt] at h3
          by_cases ht : t = ""
          · simp [ht] at h3
          · simp [ht] at h3
            exact topicMessage_ne_reminder t h3.symm
      · have hmemall : reminderMessage ∈ ctx.messages :=
          (lastN_suffix RELEVANT_HISTORY_LENGTH ctx.messages).sublist.subset h4
        exact hhist reminderMessage hmemall rfl
    · intro hc
      simp [hc]
  refine ⟨hiff, fun h1 h30 => ?_⟩
  rw [hiff]
  unfold REMINDER_INTERVAL
  omega

/-- Witness for reinforcement_cadence at a concrete context with
messageCount = 20. -/
theorem reinforcement_cadence_witness :
    ("setup" ≠ reminderText)
    ∧ (∀ m ∈ ([⟨Role.user, "hi"⟩] : List ChatMessage), m.role ≠ Role.system)
    ∧ (reminderMessage
        ∈ prepareMessagesForApi ⟨"setup"⟩ ⟨[⟨Role.user, "hi"⟩], 0, none, 20, true⟩
      ↔ (20 : Nat) % REMINDER_INTERVAL = 0) :=
  ⟨by decide, by decide,
    (reinforcement_cadence ⟨"setup"⟩ ⟨[⟨Role.user, "hi"⟩], 0, none, 20, true⟩
      (by decide) (by decide)).1⟩

/-- Membership characterization of a TTL sweep over one namespace. -/
theorem mem_cleanMapWithTtl (m : ContextMap) (now : Int) (key : String)
    (ctx : UserContext) :
    (key, ctx) ∈ cleanMapWithTtl m now
      ↔ (key, ctx) ∈ m ∧ now - ctx.lastInteraction ≤ ttlFor ctx := by
  simp [cleanMapWithTtl, List.mem_filter, not_lt]

/-- C4: sweeping at time now evicts a context from its namespace iff its
inactivity strictly exceeds its TTL, where the TTL is ACTIVE_TTL (2 h) for
active conversations and BASE_TTL (30 min) otherwise; an inactive context is
retained iff its inactivity is at most BASE_TTL, an active context is
retained iff its inactivity is at most ACTIVE_TTL, and in particular an
active context survives past BASE_TTL as long as ACTIVE_TTL is not exceeded;
cleanupOldContexts applies the same sweep to both namespaces. -/
theorem ttl_eviction (users posts : ContextMap) (now : Int) (key : String)
    (ctx : UserContext) (hu : (key, ctx) ∈ users) (hp : (key, ctx) ∈ posts) :
    ((key, ctx) ∈ (cleanupOldContexts users posts now).1
      ↔ now - ctx.lastInteraction ≤ ttlFor ctx)
    ∧ ((key, ctx) ∈ (cleanupOldContexts users posts now).2
      ↔ now - ctx.lastInteraction ≤ ttlFor ctx)
    ∧ (ctx.activeConversation = false →
        ((key, ctx) ∉ (cleanupOldContexts users posts now).1
          ↔ BASE_TTL_MS < now - ctx.lastInteraction))
    ∧ (ctx.activeConversation = true →
        ((key, ctx) ∉ (cleanupOldContexts users posts now).1
          ↔ ACTIVE_TTL_MS < now - ctx.lastInteraction))
    ∧ (ctx.activeConversation = true →
        BASE_TTL_MS < now - ctx.lastInteraction →
        now - ctx.lastInteraction ≤ ACTIVE_TTL_MS →
        (key, ctx) ∈ (cleanupOldContexts users posts now).1) := by
  unfold cleanupOldContexts
  refine ⟨?_, ?_, ?_, ?_, ?_⟩
  · rw [mem_cleanMapWithTtl]; tauto
  · rw [mem_cleanMapWithTtl]; tauto
  · intro ha; rw [mem_cleanMapWithTtl]; simp [ttlFor, ha, hu, not_le]; omega
  · intro ha; rw [mem_cleanMapWithTtl]; simp [ttlFor, ha, hu, not_le]; omega
  · intro ha _ hle; rw [mem_cleanMapWithTtl]; simp [ttlFor, ha, hu, hle]

/-- Witness for ttl_eviction: an inactive context swept 31 minutes after its
last interaction is evicted, and an active one in the same situation is kept. -/
theorem ttl_eviction_witness :
    (("k", (⟨[], 0, none, 0, false⟩ : UserContext))
        ∈ [("k", (⟨[], 0, none, 0, false⟩ : UserContext))]
      ∧ ("k", (⟨[], 0, none, 0, false⟩ : UserContext))
          ∉ (cleanupOldContexts [("k", ⟨[], 0, none, 0, false⟩)]
              [("k", ⟨[], 0, none, 0, false⟩)] 1860000).1)
    ∧ (("k", (⟨[], 0, none, 0, true⟩ : UserContext))
        ∈ [("k", (⟨[], 0, none, 0, true⟩ : UserContext))]
      ∧ ("k", (⟨[], 0, none, 0, true⟩ : UserContext))
          ∈ (cleanupOldContexts [("k", ⟨[], 0, none, 0, true⟩)]
              [("k", ⟨[], 0, none, 0, true⟩)] 1860000).1) :=
  ⟨⟨by decide,
    ((ttl_eviction [("k", ⟨[], 0, none, 0, false⟩)] [("k", ⟨[], 0, none, 0, false⟩)]
        1860000 "k" ⟨[], 0, none, 0, false⟩ (by decide) (by decide)).2.2.1
      rfl).mpr (by decide)⟩,
   ⟨by decide,
    (ttl_eviction [("k", ⟨[], 0, none, 0, true⟩)] [("k", ⟨[], 0, none, 0, true⟩)]
        1860000 "k" ⟨[], 0, none, 0, true⟩ (by decide) (by decide)).2.2.2.2
      rfl (by decide) (by decide)⟩⟩

/-- Replacing the value stored at an existing key makes lookup return the new
value. -/
theorem lookup_map_replace (m : ContextMap) (k : String) (v : UserContext)
    (h : (List.lookup k m).isSome) :
    List.lookup k (m.map (fun p => if p.1 = k then (k, v) else p)) = some v := by
  induction m with
  | nil => simp at h
  | cons p rest ih =>
    rcases p with ⟨a, b⟩
    by_cases hp : a = k
    · subst hp
      have hmap : ((a, b) :: rest).map (fun p => if p.1 = a then (a, v) else p)
          = (a, v) :: rest.map (fun p => if p.1 = a then (a, v) else p) := by
        simp
      rw [hmap]
      simp [List.lookup]
    · have hne : (k == a) = false := beq_eq_false_iff_ne.mpr (fun he => hp he.symm)
      have hmap : ((a, b) :: rest).map (fun p => if p.1 = k then (k, v) else p)
          = (a, b) :: rest.map (fun p => if p.1 = k then (k, v) else p) := by
        simp [hp]
      have h' : (List.lookup k rest).isSome := by
        simpa [List.lookup, hne] using h
      rw [hmap]
      simpa [List.lookup, hne] using ih h'

/-- Appending a fresh binding at the end makes lookup return it when the key
was absent. -/
theorem lookup_append_single (m : ContextMap) (k : String) (v : UserContext)
    (h : List.lookup k m = none) :
    List.lookup k (m ++ [(k, v)]) = some v := by
  induction m with
  | nil => simp [List.lookup]
  | cons p rest ih =>
    rcases p with ⟨a, b⟩
    by_cases hp : k = a
    · rw [List.lookup] at h
      simp [hp] at h
    · have hne : (k == a) = false := beq_eq_false_iff_ne.mpr hp
      have h' : List.lookup k rest = none := by simpa [List.lookup, hne] using h
      simpa [List.lookup, hne] using ih h'

/-- Looking up the key just written by mapSet yields the written context. -/
theorem lookup_mapSet (m : ContextMap) (k : String) (v : UserContext) :
    (mapSet m k v).lookup k = some v := by
  unfold mapSet
  by_cases h : (List.lookup k m).isSome
  · simp only [h, if_true]
    exact lookup_map_replace m k v h
  · simp only [h, if_false]
    exact lookup_append_single m k v (by
      rcases hl : List.lookup k m with _ | c
      · rfl
      · rw [hl] at h; simp at h)

/-- C8: fetch-or-create on an existing post key with a truthy (non-empty)
topic hint overwrites the stored topic and refreshes lastInteraction to the
current time while leaving messages, messageCount and activeConversation
unchanged, and the updated context is what the namespace then stores under
the key; with no hint, or with an empty hint (falsy in the source's truthy
check), both the returned context and the namespace are unchanged. -/
theorem topic_override (posts : ContextMap) (key : String) (ctx : UserContext)
    (hint : Option String) (now : Int)
    (hmem : List.lookup key posts = some ctx) :
    (∀ t, hint = some t → t ≠ "" →
      (getPostContext posts key hint now).1.postTopic = some t
      ∧ (getPostContext posts key hint now).1.lastInteraction = now
      ∧ (getPostContext posts key hint now).1.messages = ctx.messages
      ∧ (getPostContext posts key hint now).1.messageCount = ctx.messageCount
      ∧ (getPostContext posts key hint now).1.activeConversation
          = ctx.activeConversation
      ∧ List.lookup key (getPostContext posts key hint now).2
          = some (getPostContext posts key hint now).1)
    ∧ ((hint = none ∨ hint = some "") →
        getPostContext posts key hint now = (ctx, posts)) := by
  constructor
  · intro t ht hne
    subst ht
    simp only [getPostContext, hmem, hne, ne_eq, not_false_iff, if_true]
    simp [lookup_mapSet posts key]
  · intro hcase
    rcases hcase with hn | he
    · subst hn
      simp [getPostContext, hmem]
    · subst he
      simp [getPostContext, hmem]

/-- Witness for topic_override at a concrete one-entry post namespace. -/
theorem topic_override_witness :
    List.lookup "p" [("p", (⟨[⟨Role.user, "x"⟩], 5, some "old", 2, false⟩ : UserContext))]
      = some (⟨[⟨Role.user, "x"⟩], 5, some "old", 2, false⟩ : UserContext)
    ∧ (getPostContext [("p", ⟨[⟨Role.user, "x"⟩], 5, some "old", 2, false⟩)]
        "p" (some "new") 99).1.postTopic = some "new"
    ∧ getPostContext [("p", ⟨[⟨Role.user, "x"⟩], 5, some "old", 2, false⟩)]
        "p" none 99
      = (⟨[⟨Role.user, "x"⟩], 5, some "old", 2, false⟩,
         [("p", ⟨[⟨Role.user, "x"⟩], 5, some "old", 2, false⟩)]) :=
  ⟨by decide,
   ((topic_override [("p", ⟨[⟨Role.user, "x"⟩], 5, some "old", 2, false⟩)] "p"
      ⟨[⟨Role.user, "x"⟩], 5, some "old", 2, false⟩ (some "new") 99 (by decide)).1
      "new" rfl (by decide)).1,
   (topic_override [("p", ⟨[⟨Role.user, "x"⟩], 5, some "old", 2, false⟩)] "p"
      ⟨[⟨Role.user, "x"⟩], 5, some "old", 2, false⟩ none 99 (by decide)).2
      (Or.inl rfl)⟩

/-- Loop-step lemma: a successful call returns the reply with no delay. -/
theorem retryLoop_success {outcomes : Nat → ApiOutcome} {base maxRetries rc : Nat}
    {lastError : ApiError} {s : String} (h : rc < maxRetries)
    (ho : outcomes rc = ApiOutcome.success s) :
    retryLoop outcomes base maxRetries rc lastError = (Except.ok s, []) := by
  rw [retryLoop]
  simp [h, ho]

/-- Loop-step lemma: a retryable failure delays base * 2 ^ retryCount and
continues with the failure recorded as lastError. -/
theorem retryLoop_netfail {outcomes : Nat → ApiOutcome} {base maxRetries rc : Nat}
    {lastError e : ApiError} (h : rc < maxRetries)
    (ho : outcomes rc = ApiOutcome.failure e) (hn : isNetworkError e = true) :
    retryLoop outcomes base maxRetries rc lastError
      = ((retryLoop outcomes base maxRetries (rc + 1) e).1,
         base * 2 ^ rc :: (retryLoop outcomes base maxRetries (rc + 1) e).2) := by
  rw [retryLoop]
  simp [h, ho, hn]

/-- Loop-step lemma: a terminal failure propagates at once with no delay. -/
theorem retryLoop_termfail {outcomes : Nat → ApiOutcome} {base maxRetries rc : Nat}
    {lastError e : ApiError} (h : rc < maxRetries)
    (ho : outcomes rc = ApiOutcome.failure e) (hn : isNetworkError e = false) :
    retryLoop outcomes base maxRetries rc lastError = (Except.error e, []) := by
  rw [retryLoop]
  simp [h, ho, hn]

/-- Loop-step lemma: once retryCount reaches maxRetries the loop exits and
the last recorded error is thrown. -/
theorem retryLoop_exhaust {outcomes : Nat → ApiOutcome} {base maxRetries rc : Nat}
    {lastError : ApiError} (h : ¬ rc < maxRetries) :
    retryLoop outcomes base maxRetries rc lastError = (Except.error lastError, []) := by
  rw [retryLoop]
  simp [h]

/-- C5 counterexample: with maxRetries = 3 and backoffBase = 1000, three
consecutive retryable network failures with a success queued as the fourth
call do NOT yield a successful reply: the loop makes only 3 calls, performs
the delays 1000, 2000 and 4000 ms, and then throws the last network error
(the queued success is never requested). -/
theorem retry_backoff_cex :
    callApiWithRetry
        (fun n => if n < 3
          then ApiOutcome.failure ⟨true, some "ECONNRESET", "read ECONNRESET", false⟩
          else ApiOutcome.success "reply")
        1000 3
      = (Except.error ⟨true, some "ECONNRESET", "read ECONNRESET", false⟩,
         [1000, 2000, 4000])
    ∧ (callApiWithRetry
        (fun n => if n < 3
          then ApiOutcome.failure ⟨true, some "ECONNRESET", "read ECONNRESET", false⟩
          else ApiOutcome.success "reply")
        1000 3).1
      ≠ Except.ok "reply" := by
  have h1 : callApiWithRetry
      (fun n => if n < 3
        then ApiOutcome.failure ⟨true, some "ECONNRESET", "read ECONNRESET", false⟩
        else ApiOutcome.success "reply")
      1000 3
    = (Except.error ⟨true, some "ECONNRESET", "read ECONNRESET", false⟩,
       [1000, 2000, 4000]) := by
    unfold callApiWithRetry
    rw [retryLoop_netfail (by norm_num) rfl (by decide),
      retryLoop_netfail (by norm_num) rfl (by decide),
      retryLoop_netfail (by norm_num) rfl (by decide),
      retryLoop_exhaust (by norm_num)]
    norm_num
  refine ⟨h1, ?_⟩
  rw [h1]
  simp

/-- C5 (amended): with maxRetries = 3 and backoffBase = 1000 ms, the loop
makes at most 3 calls in total.  Three consecutive retryable (network)
failures exhaust the budget: the delays 1000, 2000 and 4000 ms are performed
and the third network error is surfaced to the caller — a success queued
after them is never reached.  Two retryable failures followed by a success
yield exactly 2 delayed retries (delays 1000 and 2000 ms) and the successful
reply.  A terminal (non-network, e.g. HTTP 400) failure on the first call
propagates immediately with zero retries and no delay. -/
theorem retry_backoff (e1 e2 e3 et : ApiError) (s : String)
    (f g k : Nat → ApiOutcome)
    (hn1 : isNetworkError e1 = true) (hn2 : isNetworkError e2 = true)
    (hn3 : isNetworkError e3 = true) (hnt : isNetworkError et = false)
    (hf0 : f 0 = ApiOutcome.failure e1) (hf1 : f 1 = ApiOutcome.failure e2)
    (hf2 : f 2 = ApiOutcome.failure e3)
    (hg0 : g 0 = ApiOutcome.failure e1) (hg1 : g 1 = ApiOutcome.failure e2)
    (hg2 : g 2 = ApiOutcome.success s)
    (hk0 : k 0 = ApiOutcome.failure et) :
    callApiWithRetry f BACKOFF_BASE_MS DEFAULT_RETRIES
        = (Except.error e3, [1000, 2000, 4000])
    ∧ callApiWithRetry g BACKOFF_BASE_MS DEFAULT_RETRIES
        = (Except.ok s, [1000, 2000])
    ∧ callApiWithRetry k BACKOFF_BASE_MS DEFAULT_RETRIES
        = (Except.error et, []) := by
  unfold callApiWithRetry BACKOFF_BASE_MS DEFAULT_RETRIES
  refine ⟨?_, ?_, ?_⟩
  · rw [retryLoop_netfail (by norm_num) hf0 hn1,
      retryLoop_netfail (by norm_num) hf1 hn2,
      retryLoop_netfail (by norm_num) hf2 hn3,
      retryLoop_exhaust (by norm_num)]
    norm_num
  · rw [retryLoop_netfail (by norm_num) hg0 hn1,
      retryLoop_netfail (by norm_num) hg1 hn2,
      retryLoop_success (by norm_num) hg2]
    norm_num
  · exact retryLoop_termfail (by norm_num) hk0 hnt

/-- Witness for retry_backoff at concrete network and terminal errors. -/
theorem retry_backoff_witness :
    isNetworkError ⟨true, some "ECONNRESET", "read ECONNRESET", false⟩ = true
    ∧ isNetworkError ⟨true, none, "Request failed with status code 400", true⟩ = false
    ∧ callApiWithRetry
        (fun n => if n = 0
          then ApiOutcome.failure ⟨true, none, "Request failed with status code 400", true⟩
          else ApiOutcome.success "ok")
        BACKOFF_BASE_MS DEFAULT_RETRIES
      = (Except.error ⟨true, none, "Request failed with status code 400", true⟩, []) :=
  ⟨by decide, by decide,
    (retry_backoff
      ⟨true, some "ECONNRESET", "read ECONNRESET", false⟩
      ⟨true, some "ECONNRESET", "read ECONNRESET", false⟩
      ⟨true, some "ECONNRESET", "read ECONNRESET", false⟩
      ⟨true, none, "Request failed with status code 400", true⟩
      "ok"
      (fun _ => ApiOutcome.failure ⟨true, some "ECONNRESET", "read ECONNRESET", false⟩)
      (fun n => if n < 2
        then ApiOutcome.failure ⟨true, some "ECONNRESET", "read ECONNRESET", false⟩
        else ApiOutcome.success "ok")
      (fun n => if n = 0
        then ApiOutcome.failure ⟨true, none, "Request failed with status code 400", true⟩
        else ApiOutcome.success "ok")
      (by decide) (by decide) (by decide) (by decide)
      rfl rfl rfl rfl rfl rfl rfl).2.2⟩

/-- C6 counterexample: a text of 11 spaces trims to length 0 (below 10), yet
inferPostTopic issues a completion call, because the source checks the
untrimmed length. -/
theorem short_text_fallback_cex :
    (jsTrim "           ").length < 10
    ∧ (inferPostTopic "           " (Except.error unknownError)).1 = true := by
  decide

/-- C6 (amended): for every input whose raw (untrimmed) length is below 10,
inferPostTopic returns the constant fallback label immediately and issues no
completion call; the source applies no trimming before the length check. -/
theorem short_text_fallback (text : String) (api : Except ApiError String)
    (h : text.length < 10) :
    inferPostTopic text api = (false, "Общая тема") := by
  simp [inferPostTopic, h]

/-- Witness for short_text_fallback at a 2-character text. -/
theorem short_text_fallback_witness :
    ("hi" : String).length < 10
    ∧ inferPostTopic "hi" (Except.ok "Cats") = (false, "Общая тема") :=
  ⟨by decide, short_text_fallback "hi" (Except.ok "Cats") (by decide)⟩

/-- Bounded prefixes of the takeWhile run are exactly the prefixes on which
the predicate holds everywhere. -/
theorem le_length_takeWhile_iff (p : Char → Bool) :
    ∀ (cs : List Char) (j : Nat), j ≤ cs.length →
      (j ≤ (cs.takeWhile p).length ↔ (cs.take j).all p = true) := by
  intro cs
  induction cs with
  | nil =>
    intro j hj
    have : j = 0 := by simpa using hj
    subst this
    simp
  | cons c rest ih =>
    intro j hj
    cases j with
    | zero => simp
    | succ k =>
      by_cases hp : p c
      · have hk : k ≤ rest.length := by simpa using hj
        simp [List.takeWhile_cons, hp, Nat.succ_le_succ_iff, ih k hk]
      · simp [List.takeWhile_cons, hp]

/-- Downward scan correctness: if j is a terminator position within bound n
and no larger position within n is one, the scan returns j. -/
theorem lastTermIdx_eq_some_of_max (cs : List Char) :
    ∀ (n j : Nat), 1 ≤ j → j ≤ n → termAt cs j = true →
      (∀ j2, j < j2 → j2 ≤ n → termAt cs j2 = false) →
      lastTermIdx cs n = some j := by
  intro n
  induction n with
  | zero => intro j h1 h0 _ _; omega
  | succ m ih =>
    intro j h1 hjn ht hmax
    by_cases hn : termAt cs (m + 1) = true
    · have hj : j = m + 1 := by
        by_contra hne
        have hlt : j < m + 1 := by omega
        have := hmax (m + 1) hlt (le_refl _)
        simp [hn] at this
      subst hj
      simp [lastTermIdx, hn]
    · have hne : j ≠ m + 1 := by
        intro he; rw [he] at ht; exact hn ht
      have hjm : j ≤ m := by omega
      simp only [lastTermIdx, hn, if_false, Bool.false_eq_true]
      exact ih j h1 hjm ht (fun j2 hj2 hj2m => hmax j2 hj2 (by omega))

/-- Downward scan failure: if no position within bound n is a terminator,
the scan returns none. -/
theorem lastTermIdx_eq_none_of (cs : List Char) :
    ∀ n, (∀ j, 1 ≤ j → j ≤ n → termAt cs j = false) →
      lastTermIdx cs n = none := by
  intro n
  induction n with
  | zero => intro _; rfl
  | succ m ih =>
    intro hall
    have hn : termAt cs (m + 1) = false := hall (m + 1) (by omega) (le_refl _)
    simp only [lastTermIdx, hn, if_false, Bool.false_eq_true]
    exact ih (fun j h1 hm => hall j h1 (by omega))

/-- C7 counterexample: on a completion failure for a text with two sentence
terminators inside the 50-character window, the code's heuristic keeps
everything up to the LAST terminator of the window, not up to the first (the
regex is greedy), so the claimed value — the prefix up to the first
terminator, with or without that terminator — is not returned. -/
theorem infer_heuristic_cex :
    (inferPostTopic "Hi there. Bye now. x" (Except.error unknownError)).2
      = "Hi there. Bye now."
    ∧ "Hi there. Bye now." ≠ "Hi there."
    ∧ "Hi there. Bye now." ≠ "Hi there" := by
  decide

/-- C7 (amended): when the completion call fails, inferPostTopic does not
propagate the failure but returns the deterministic heuristic; the heuristic
keeps the first j+1 characters where j is the GREATEST index at most 50 such
that the character at j is a sentence terminator and no earlier character is
a newline (the greedy regex backtracks to the last such terminator, not the
first); when no such index exists it keeps the leading newline-free run
capped at 50 characters (the constant label when that run is empty). -/
theorem infer_heuristic_fallback (text : String) (e : ApiError)
    (hlen : 10 ≤ text.length) :
    inferPostTopic text (Except.error e) = (true, fallbackTopic text)
    ∧ (∀ j, validTermAt text.toList j = true →
        (∀ j2, j2 ≤ 50 → validTermAt text.toList j2 = true → j2 ≤ j) →
        fallbackTopic text = ((text.toList.take (j + 1)).asString))
    ∧ ((∀ j, j ≤ 50 → validTermAt text.toList j = false) →
        0 < ((text.toList.takeWhile (fun c => !(c == '\n'))).take 50).length →
        fallbackTopic text
          = ((text.toList.take
              ((text.toList.takeWhile (fun c => !(c == '\n'))).take 50).length).asString)) := by
  have hnot : ¬ text.length < 10 := by omega
  refine ⟨by simp [inferPostTopic, hnot], ?_, ?_⟩
  · intro j hv hmax
    simp only [validTermAt, Bool.and_eq_true, decide_eq_true_eq] at hv
    obtain ⟨⟨⟨h1, h50⟩, hterm⟩, hall⟩ := hv
    have hjlen : j < text.toList.length := by
      by_contra hge
      have hnone : text.toList.get? j = none := List.get?_eq_none.mpr (by omega)
      rw [termAt, hnone] at hterm
      simp at hterm
    have htw : j ≤ (text.toList.takeWhile (fun c => !(c == '\n'))).length :=
      (le_length_takeWhile_iff _ text.toList j (by omega)).mpr hall
    have htwlen : (text.toList.takeWhile (fun c => !(c == '\n'))).length
        ≤ text.toList.length :=
      (List.takeWhile_sublist _).length_le
    have hpmax : j ≤ ((text.toList.takeWhile (fun c => !(c == '\n'))).take 50).length := by
      rw [List.length_take]
      omega
    have hmax' : ∀ j2, j < j2 →
        j2 ≤ ((text.toList.takeWhile (fun c => !(c == '\n'))).take 50).length →
        termAt text.toList j2 = false := by
      intro j2 hjj2 hj2p
      rw [List.length_take] at hj2p
      by_contra hne
      have hterm2 : termAt text.toList j2 = true := by
        cases h : termAt text.toList j2
        · exact absurd h hne
        · rfl
      have hall2 : (text.toList.take j2).all (fun c => !(c == '\n')) = true :=
        (le_length_takeWhile_iff _ text.toList j2 (by omega)).mp (by omega)
      have hv2 : validTermAt text.toList j2 = true := by
        simp only [validTermAt, Bool.and_eq_true, decide_eq_true_eq]
        exact ⟨⟨⟨by omega, by omega⟩, hterm2⟩, hall2⟩
      have := hmax j2 (by omega) hv2
      omega
    have hsome := lastTermIdx_eq_some_of_max text.toList _ j h1 hpmax hterm hmax'
    simp only [fallbackTopic]
    rw [hsome]
  · intro hnone hpos
    have hall : ∀ j, 1 ≤ j →
        j ≤ ((text.toList.takeWhile (fun c => !(c == '\n'))).take 50).length →
        termAt text.toList j = false := by
      intro j h1 hjp
      rw [List.length_take] at hjp
      have htwlen : (text.toList.takeWhile (fun c => !(c == '\n'))).length
          ≤ text.toList.length :=
        (List.takeWhile_sublist _).length_le
      by_contra hne
      have hterm2 : termAt text.toList j = true := by
        cases h : termAt text.toList j
        · exact absurd h hne
        · rfl
      have hall2 : (text.toList.take j).all (fun c => !(c == '\n')) = true :=
        (le_length_takeWhile_iff _ text.toList j (by omega)).mp (by omega)
      have hv2 : validTermAt text.toList j = true := by
        simp only [validTermAt, Bool.and_eq_true, decide_eq_true_eq]
        exact ⟨⟨⟨by omega, by omega⟩, hterm2⟩, hall2⟩
      have := hnone j (by omega)
      rw [hv2] at this
      simp at this
    have hn := lastTermIdx_eq_none_of text.toList _ hall
    simp only [fallbackTopic]
    rw [hn, if_pos hpos]

/-- Witness for infer_heuristic_fallback on a concrete failed call: the
greatest valid terminator index of the sample text is 17, and the heuristic
keeps the first 18 characters. -/
theorem infer_heuristic_fallback_witness :
    (10 ≤ ("Hi there. Bye now. x" : String).length)
    ∧ inferPostTopic "Hi there. Bye now. x" (Except.error unknownError)
        = (true, fallbackTopic "Hi there. Bye now. x")
    ∧ fallbackTopic "Hi there. Bye now. x"
        = (("Hi there. Bye now. x" : String).toList.take 18).asString :=
  ⟨by decide,
   (infer_heuristic_fallback "Hi there. Bye now. x" unknownError (by decide)).1,
   (infer_heuristic_fallback "Hi there. Bye now. x" unknownError (by decide)).2.1
     17 (by decide) (by decide)⟩

/-- C9 counterexample: an inbound message that is forwarded from a channel
AND mentions the bot AND is older than the cutoff is routed to post
commenting (context creation and a completion call), not logged and dropped:
the channel-post branch takes precedence over the stale-addressed branch. -/
theorem stale_mention_cex :
    isBotMentioned "hello @mybot" "mybot" = true
    ∧ ((⟨some "hello @mybot", none, 0, none, some ⟨"channel"⟩, none,
          some ⟨5, some "alice"⟩⟩ : InboundMessage).date * 1000
        < getIgnoreThreshold ⟨none⟩ 1000000 1000000)
    ∧ isChannelPost ⟨some "hello @mybot", none, 0, none, some ⟨"channel"⟩, none,
        some ⟨5, some "alice"⟩⟩ = true
    ∧ handleIncomingMessage ⟨7, "mybot"⟩ ⟨none⟩ 1000000 1000000 0
        ⟨some "hello @mybot", none, 0, none, some ⟨"channel"⟩, none,
          some ⟨5, some "alice"⟩⟩
      = DispatchAction.commentPost
    ∧ DispatchAction.commentPost ≠ DispatchAction.logOldMessage
    ∧ actionUsesContextOrApi DispatchAction.commentPost = true := by
  decide

/-- C9 (amended): under a uniform draw below 1 (always, at the default 100
percent probability), a message with extractable text that is NOT classified
as a channel post and is addressed to the bot (reply to the bot's message or
handle mention) is logged and dropped when its timestamp is strictly before
the cutoff (startup time, or now minus the configured minutes) — reaching
neither the context store nor the gateway — and handled as a direct message
when its timestamp is at or after the cutoff; a message classified as a
channel post is routed to post commenting regardless of its age. -/
theorem stale_mention_policy (botInfo : BotInfo) (cfg : DispatchConfig)
    (startupTime now : Int) (rand : ℚ) (msg : InboundMessage) (txt : String)
    (hrand : rand < 1)
    (htxt : getMessageText msg = some txt) :
    (isChannelPost msg = true →
      handleIncomingMessage botInfo cfg startupTime now rand msg
        = DispatchAction.commentPost)
    ∧ (isChannelPost msg = false →
        (isReplyToBot msg botInfo || isBotMentioned txt botInfo.username) = true →
        (msg.date * 1000 < getIgnoreThreshold cfg startupTime now →
          handleIncomingMessage botInfo cfg startupTime now rand msg
            = DispatchAction.logOldMessage
          ∧ actionUsesContextOrApi
              (handleIncomingMessage botInfo cfg startupTime now rand msg) = false)
        ∧ (getIgnoreThreshold cfg startupTime now ≤ msg.date * 1000 →
          handleIncomingMessage botInfo cfg startupTime now rand msg
            = DispatchAction.directMessage)) := by
  have hdraw : decide (rand < COMMENT_PROBABILITY) = true := by
    simp [COMMENT_PROBABILITY, hrand]
  constructor
  · intro hch
    simp [handleIncomingMessage, htxt, hch, hdraw]
  · intro hch haddr
    constructor
    · intro hold
      have holdb : decide (msg.date * 1000 < getIgnoreThreshold cfg startupTime now)
          = true := by simp [hold]
      constructor
      · simp [handleIncomingMessage, htxt, hch, haddr, holdb]
      · simp [handleIncomingMessage, htxt, hch, haddr, holdb, actionUsesContextOrApi]
    · intro hfresh
      have holdb : decide (msg.date * 1000 < getIgnoreThreshold cfg startupTime now)
          = false := by simp; omega
      simp [handleIncomingMessage, htxt, hch, haddr, holdb]

/-- Witness for stale_mention_policy: a stale non-channel mention is logged
and dropped. -/
theorem stale_mention_policy_witness :
    getMessageText ⟨some "hey @mybot", none, 0, none, none, none,
        some ⟨5, some "alice"⟩⟩
      = some "hey @mybot"
    ∧ handleIncomingMessage ⟨7, "mybot"⟩ ⟨none⟩ 1000000 1000000 0
        ⟨some "hey @mybot", none, 0, none, none, none, some ⟨5, some "alice"⟩⟩
      = DispatchAction.logOldMessage :=
  ⟨by decide,
   ((stale_mention_policy ⟨7, "mybot"⟩ ⟨none⟩ 1000000 1000000 0
      ⟨some "hey @mybot", none, 0, none, none, none, some ⟨5, some "alice"⟩⟩
      "hey @mybot" (by norm_num) (by decide)).2
      (by decide) (by decide)).1 (by decide) |>.1⟩

/-- The chunk loop never terminates on a non-empty remainder: every iteration
prepends an ellipsis to the remainder, so the remainder never becomes empty
and every amount of fuel is exhausted. -/
theorem chunkLoop_none : ∀ (fuel : Nat) (rem : List Char), rem ≠ [] →
    chunkLoop fuel rem = none := by
  intro fuel
  induction fuel with
  | zero => intro rem _; rfl
  | succ n ih =>
    intro rem hne
    have hlen : rem.length > 0 := List.length_pos.mpr hne
    simp only [chunkLoop, hlen, if_true]
    rw [ih _ (by simp)]

/-- A text with no whitespace is a single sentence for the splitter. -/
theorem splitSentAux_no_ws : ∀ (cs cur : List Char),
    (∀ c ∈ cs, Char.isWhitespace c = false) →
    splitSentAux cs cur = [cur.reverse ++ cs] := by
  intro cs
  induction cs with
  | nil => intro cur _; simp [splitSentAux]
  | cons c rest ih =>
    intro cur hws
    have hc : Char.isWhitespace c = false := hws c (by simp)
    have hrest : ∀ x ∈ rest, Char.isWhitespace x = false :=
      fun x hx => hws x (by simp [hx])
    rw [splitSentAux.eq_def]
    simp only [hc, Bool.false_and, Bool.false_eq_true, if_false]
    rw [ih (c :: cur) hrest]
    simp

/-- C10 (code bug): the guard half holds — an empty, whitespace-only or
literal bracket-pair text is dropped with no send at all — but the other half
fails: a non-empty text of 4097 identical letters (no split point, longer
than MAX_LENGTH) drives splitMessageIntoParts into its chunk loop, which
re-prepends an ellipsis on every iteration, never empties the remainder and
so never returns no matter how much fuel is provided: nothing is ever handed
to the delivery collaborator, where the claim promises at least one part. -/
theorem send_split_message_empty_guard :
    sendSplitMessage 1 "" = some []
    ∧ sendSplitMessage 1 "   " = some []
    ∧ sendSplitMessage 1 "[]" = some []
    ∧ (∀ fuel, sendSplitMessage fuel ((List.replicate 4097 'a').asString) = none) := by
  refine ⟨by decide, by decide, by decide, ?_⟩
  intro fuel
  have hchars : ∀ c ∈ List.replicate 4097 'a', Char.isWhitespace c = false := by
    intro c hc
    rw [List.eq_of_mem_replicate hc]
    decide
  have htl : ((List.replicate 4097 'a').asString).toList = List.replicate 4097 'a' :=
    rfl
  have hlen : ((List.replicate 4097 'a').asString).length = 4097 := by
    show (List.replicate 4097 'a').length = 4097
    exact List.length_replicate 4097 'a' 
  have hne : (List.replicate 4097 'a').asString ≠ "" := by
    intro h
    have h2 := congrArg String.length h
    rw [hlen] at h2
    exact absurd h2 (by decide)
  have hdropall : ∀ (l : List Char), (∀ c ∈ l, Char.isWhitespace c = false) →
      l.dropWhile Char.isWhitespace = l := by
    intro l hl
    cases l with
    | nil => rfl
    | cons c cs => simp [List.dropWhile_cons, hl c (by simp)]
  have hrev : ∀ c ∈ (List.replicate 4097 'a').reverse, Char.isWhitespace c = false :=
    fun c hc => hchars c (List.mem_reverse.mp hc)
  have htrim : jsTrim ((List.replicate 4097 'a').asString)
      = (List.replicate 4097 'a').asString := by
    unfold jsTrim
    rw [htl, hdropall _ hchars, hdropall _ hrev, List.reverse_reverse]
  have htrimne : jsTrim ((List.replicate 4097 'a').asString) ≠ "" := by
    rw [htrim]; exact hne
  have hnbr : (List.replicate 4097 'a').asString ≠ "[]" := by
    intro h
    have h2 := congrArg String.length h
    rw [hlen] at h2
    exact absurd h2 (by decide)
  have hguard : ¬((List.replicate 4097 'a').asString = ""
      ∨ jsTrim ((List.replicate 4097 'a').asString) = ""
      ∨ (List.replicate 4097 'a').asString = "[]") := by
    push_neg
    exact ⟨hne, htrimne, hnbr⟩
  have hsent : splitSentences ((List.replicate 4097 'a').asString)
      = [(List.replicate 4097 'a').asString] := by
    unfold splitSentences
    rw [htl, splitSentAux_no_ws _ _ hchars]
    simp only [List.reverse_nil, List.nil_append, List.map_cons, List.map_nil]
  have hempty : ("" : String).length = 0 := rfl
  have hnil : (List.replicate 4097 'a') ≠ [] := by
    intro h
    have h2 := congrArg List.length h
    rw [List.length_replicate] at h2
    exact absurd h2 (by decide)
  rw [sendSplitMessage, if_neg hguard]
  simp only [hlen, MAX_SAFE_LENGTH, MAX_MESSAGE_LENGTH]
  have hc1 : ¬ ((4097:Nat) > 4000 * 5) := by omega
  simp only [if_neg hc1, hlen]
  have hc2 : ¬ ((4097:Nat) ≤ 4096) := by omega
  rw [if_neg hc2]
  rw [splitMessageIntoParts, hsent]
  rw [splitLoop]
  simp only [hempty, hlen, MAX_MESSAGE_LENGTH]
  have hgt : (0:Nat) + 4097 > 4096 - 30 := by omega
  rw [if_pos hgt]
  have hz : ¬ ((0:Nat) > 0) := by omega
  rw [if_neg hz]
  have hbig : (4097:Nat) > 4096 := by omega
  rw [if_pos hbig]
  rw [show ((List.replicate 4097 'a').asString).toList = List.replicate 4097 'a' from rfl,
    chunkLoop_none fuel _ hnil]

end Bot
